import Mathlib

/- Verification of ntoutges/virtual-server against its design document.

   Shallow embedding of src/module/lib/common.ts, client.ts and server.ts:
   stateful classes become structures with explicit state passing, timers and
   transport callbacks become events of small step functions, JS numbers used
   as timestamps and message ids become Nat (they are nonnegative integers in
   the source), JS values become a tagged Value type compared structurally,
   and the JS string comparison a < b (lexicographic by code unit) becomes
   the lexicographic order on the character lists a.data < b.data, which is
   kernel-computable and linearly ordered. -/

/-- JS values exchanged by the protocol, compared structurally (the values a
peer stores in a variable or sends in an envelope body). -/
inductive Value where
  | null
  | bool (b : Bool)
  | num (n : Int)
  | str (s : String)
deriving DecidableEq, Repr

/-- Per-variable state from common.ts (abstract class Variable): the stored
value plus the lastUpdate / lastUpdater bookkeeping used to decide whether an
incoming write is applied. -/
structure VarState where
  value : Value
  lastUpdate : Nat
  lastUpdater : String
deriving DecidableEq, Repr

/-- Result of a Variable set call: the updated variable state, the boolean the
method returns, and whether the onChange callback fired (set calls the private
method that invokes onChange only when the write is applied and
triggerCallback is true; otherwise it writes the raw value or does nothing). -/
structure SetOutcome where
  state : VarState
  applied : Bool
  onChangeFired : Bool
deriving DecidableEq, Repr

/-- ActiveVariable.set (common.ts lines 85-103).  The write is applied iff
lastUpdate < time, or lastUpdate == time and lastUpdater < from compared as
strings; on application the value and both bookkeeping fields are replaced
and true is returned, otherwise the state is untouched and false returned. -/
def ActiveVariable.set (v : VarState) (value : Value) (fromId : String)
    (time : Nat) (triggerCallback : Bool) : SetOutcome :=
  if v.lastUpdate < time ∨ (v.lastUpdate = time ∧ v.lastUpdater.data < fromId.data) then
    { state := { value := value, lastUpdate := time, lastUpdater := fromId }
    , applied := true
    , onChangeFired := triggerCallback }
  else
    { state := v, applied := false, onChangeFired := false }

/-- LazyVariable.set (common.ts lines 133-151); the body in the source is
textually identical to ActiveVariable.set. -/
def LazyVariable.set (v : VarState) (value : Value) (fromId : String)
    (time : Nat) (triggerCallback : Bool) : SetOutcome :=
  if v.lastUpdate < time ∨ (v.lastUpdate = time ∧ v.lastUpdater.data < fromId.data) then
    { state := { value := value, lastUpdate := time, lastUpdater := fromId }
    , applied := true
    , onChangeFired := triggerCallback }
  else
    { state := v, applied := false, onChangeFired := false }

/-- One replicated write: a value stamped with its origin peer id and send
time, as carried by a var envelope body. -/
structure Write where
  value : Value
  fromId : String
  time : Nat
deriving DecidableEq, Repr

/-- Apply a write to a replica of a variable, keeping only the state (the
convergence claims quantify over application order of such writes). -/
def applyWrite (s : VarState) (w : Write) : VarState :=
  (ActiveVariable.set s w.value w.fromId w.time true).state

lemma applyWrite_pos (s : VarState) (w : Write)
    (h : s.lastUpdate < w.time ∨ (s.lastUpdate = w.time ∧ s.lastUpdater.data < w.fromId.data)) :
    applyWrite s w = { value := w.value, lastUpdate := w.time, lastUpdater := w.fromId } := by
  unfold applyWrite ActiveVariable.set
  rw [if_pos h]

lemma applyWrite_neg (s : VarState) (w : Write)
    (h : ¬ (s.lastUpdate < w.time ∨ (s.lastUpdate = w.time ∧ s.lastUpdater.data < w.fromId.data))) :
    applyWrite s w = s := by
  unfold applyWrite ActiveVariable.set
  rw [if_neg h]

/-- Core of the convergence argument: when the second write strictly dominates
the first in the (time, updater) lexicographic order, the two application
orders agree. -/
lemma applyWrite_comm_of_lt (s : VarState) (w1 w2 : Write)
    (h : w1.time < w2.time ∨ (w1.time = w2.time ∧ w1.fromId.data < w2.fromId.data)) :
    applyWrite (applyWrite s w1) w2 = applyWrite (applyWrite s w2) w1 := by
  by_cases h2 : s.lastUpdate < w2.time ∨ (s.lastUpdate = w2.time ∧ s.lastUpdater.data < w2.fromId.data)
  · have hr : applyWrite s w2 = { value := w2.value, lastUpdate := w2.time, lastUpdater := w2.fromId } :=
      applyWrite_pos s w2 h2
    have hnot : ¬ (w2.time < w1.time ∨ (w2.time = w1.time ∧ w2.fromId.data < w1.fromId.data)) := by
      rcases h with hT | ⟨hTe, hU⟩
      · rintro (hT2 | ⟨hTe2, hU2⟩) <;> omega
      · rintro (hT2 | ⟨hTe2, hU2⟩)
        · omega
        · exact absurd hU2 (lt_asymm hU)
    have hR : applyWrite (applyWrite s w2) w1
        = { value := w2.value, lastUpdate := w2.time, lastUpdater := w2.fromId } := by
      rw [hr]
      exact applyWrite_neg _ _ hnot
    by_cases h1 : s.lastUpdate < w1.time ∨ (s.lastUpdate = w1.time ∧ s.lastUpdater.data < w1.fromId.data)
    · have hl : applyWrite s w1 = { value := w1.value, lastUpdate := w1.time, lastUpdater := w1.fromId } :=
        applyWrite_pos s w1 h1
      have hL : applyWrite (applyWrite s w1) w2
          = { value := w2.value, lastUpdate := w2.time, lastUpdater := w2.fromId } := by
        rw [hl]
        exact applyWrite_pos _ _ h
      rw [hL, hR]
    · have hl : applyWrite s w1 = s := applyWrite_neg s w1 h1
      rw [hl, hR, hr]
  · have h1 : ¬ (s.lastUpdate < w1.time ∨ (s.lastUpdate = w1.time ∧ s.lastUpdater.data < w1.fromId.data)) := by
      rintro (hT1 | ⟨hTe1, hU1⟩)
      · rcases h with hT | ⟨hTe, hU⟩
        · exact h2 (Or.inl (by omega))
        · exact h2 (Or.inl (by omega))
      · rcases h with hT | ⟨hTe, hU⟩
        · exact h2 (Or.inl (by omega))
        · exact h2 (Or.inr ⟨by omega, lt_trans hU1 hU⟩)
    rw [applyWrite_neg s w1 h1, applyWrite_neg s w2 h2, applyWrite_neg s w1 h1]

/-- Claim C1: for every variable (active or lazy) and every call
set(value, from, time, triggerCallback), the write is applied iff
time > lastUpdate, or time == lastUpdate and from compares lexically greater
than lastUpdater; when applied, the stored value, lastUpdate and lastUpdater
are updated and set returns true; when not applied the entire variable state
is unchanged and set returns false (a silent no-op). -/
theorem C1_lww_write_order :
    ∀ (v : VarState) (val : Value) (fromId : String) (time : Nat) (tc : Bool),
    LazyVariable.set v val fromId time tc = ActiveVariable.set v val fromId time tc ∧
    ((ActiveVariable.set v val fromId time tc).applied = true ↔
      (v.lastUpdate < time ∨ (v.lastUpdate = time ∧ v.lastUpdater.data < fromId.data))) ∧
    ((ActiveVariable.set v val fromId time tc).applied = true →
      (ActiveVariable.set v val fromId time tc).state =
        { value := val, lastUpdate := time, lastUpdater := fromId }) ∧
    ((ActiveVariable.set v val fromId time tc).applied = false →
      (ActiveVariable.set v val fromId time tc).state = v) := by
  intro v val fromId time tc
  by_cases hc : v.lastUpdate < time ∨ (v.lastUpdate = time ∧ v.lastUpdater.data < fromId.data)
  · refine ⟨rfl, ?_, ?_, ?_⟩ <;> simp [ActiveVariable.set, hc]
  · refine ⟨rfl, ?_, ?_, ?_⟩ <;> simp [ActiveVariable.set, hc]

/-- Claim C1 witness: a concrete winning write is applied and replaces the
stored value and bookkeeping. -/
theorem C1_lww_write_order_witness :
    (ActiveVariable.set { value := Value.null, lastUpdate := 0, lastUpdater := "" }
        (Value.num 1) "A" 1 true).state
      = { value := Value.num 1, lastUpdate := 1, lastUpdater := "A" } :=
  (C1_lww_write_order { value := Value.null, lastUpdate := 0, lastUpdater := "" }
      (Value.num 1) "A" 1 true).2.2.1 (by decide)

/-- Claim C2 counterexample: two writes carrying the same (time, updater)
stamp but different values leave the two replicas with different final
values depending on application order, so the claim as stated (any two
writes, applied in either order, converge) is false. -/
theorem C2_counterexample :
    applyWrite (applyWrite { value := Value.null, lastUpdate := 0, lastUpdater := "" }
        { value := Value.str "a", fromId := "A", time := 1 })
        { value := Value.str "b", fromId := "A", time := 1 }
      ≠
    applyWrite (applyWrite { value := Value.null, lastUpdate := 0, lastUpdater := "" }
        { value := Value.str "b", fromId := "A", time := 1 })
        { value := Value.str "a", fromId := "A", time := 1 } := by
  decide

/-- Claim C2 (amended): for any two writes with distinct (time, updater)
stamps, applying them in either order to two replicas that start from the
same state leaves both replicas in the same final state, determined solely by
the write-ordering rule. -/
theorem C2_two_write_convergence :
    ∀ (s : VarState) (w1 w2 : Write),
    (w1.time, w1.fromId) ≠ (w2.time, w2.fromId) →
    applyWrite (applyWrite s w1) w2 = applyWrite (applyWrite s w2) w1 := by
  intro s w1 w2 hne
  rcases lt_trichotomy w1.time w2.time with hT | hTe | hT
  · exact applyWrite_comm_of_lt s w1 w2 (Or.inl hT)
  · rcases lt_trichotomy w1.fromId.data w2.fromId.data with hU | hUe | hU
    · exact applyWrite_comm_of_lt s w1 w2 (Or.inr ⟨hTe, hU⟩)
    · have : w1.fromId = w2.fromId := String.ext hUe
      exact absurd (by rw [hTe, this]) hne
    · exact (applyWrite_comm_of_lt s w2 w1 (Or.inr ⟨hTe.symm, hU⟩)).symm
  · exact (applyWrite_comm_of_lt s w2 w1 (Or.inl hT)).symm

/-- Claim C2 witness: a concrete pair of concurrent writes with equal times
and distinct updaters converges to the same state in both orders. -/
theorem C2_two_write_convergence_witness :
    ((100, "A") : Nat × String) ≠ (100, "B") ∧
    applyWrite (applyWrite { value := Value.null, lastUpdate := 0, lastUpdater := "" }
        { value := Value.num 10, fromId := "A", time := 100 })
        { value := Value.num 5, fromId := "B", time := 100 }
      =
    applyWrite (applyWrite { value := Value.null, lastUpdate := 0, lastUpdater := "" }
        { value := Value.num 5, fromId := "B", time := 100 })
        { value := Value.num 10, fromId := "A", time := 100 } :=
  ⟨by decide,
   C2_two_write_convergence { value := Value.null, lastUpdate := 0, lastUpdater := "" }
     { value := Value.num 10, fromId := "A", time := 100 }
     { value := Value.num 5, fromId := "B", time := 100 } (by decide)⟩

/- Client correlation layer (client.ts).  The fields of class Client that the
claims concern, with the transcript of conn.send calls recorded in wire (the
code's observable output to the transport) and rejectedIds recording every id
whose stored reject callback is invoked.  No statement in client.ts ever calls
a stored reject, so no step below touches rejectedIds. -/

/-- Envelope built by Client.send (client.ts lines 269-276): type, body and
metadata id and sent time flattened. -/
structure Message where
  type : String
  body : Value
  id : Nat
  sent : Nat
deriving DecidableEq, Repr

/-- Client state: availableMessageIds is the JS Set in insertion order,
messagePromises is the JS Map in insertion order (id to stored envelope),
sendQueue the queue filled while not initialized. -/
structure CState where
  availableMessageIds : List Nat
  maxMessageId : Nat
  messagePromises : List (Nat × Message)
  sendQueue : List Message
  initialized : Bool
  isConnectionDead : Bool
  wire : List Message
  rejectedIds : List Nat
deriving DecidableEq, Repr

/-- Field initializers of class Client (client.ts lines 16-29). -/
def c0 : CState :=
  { availableMessageIds := []
  , maxMessageId := 0
  , messagePromises := []
  , sendQueue := []
  , initialized := false
  , isConnectionDead := false
  , wire := []
  , rejectedIds := [] }

/-- Client.getNextAvailableId (client.ts lines 303-313): take the first value
of the Set if any (removing it), else return maxMessageId and increment it. -/
def getNextAvailableId (s : CState) : Nat × CState :=
  match s.availableMessageIds with
  | [] => (s.maxMessageId, { s with maxMessageId := s.maxMessageId + 1 })
  | x :: rest => (x, { s with availableMessageIds := rest })

/-- Client.releaseId (client.ts lines 314-316): Set.add, a no-op when the id
is already present, otherwise appended in insertion order. -/
def releaseId (s : CState) (id : Nat) : CState :=
  if id ∈ s.availableMessageIds then s
  else { s with availableMessageIds := s.availableMessageIds ++ [id] }

/-- JS Map.set on an association list kept in insertion order: replace the
value in place when the key exists, else append the new entry. -/
def assocSet {α β : Type} [DecidableEq α] : List (α × β) → α → β → List (α × β)
  | [], k, v => [(k, v)]
  | (k0, v0) :: rest, k, v =>
      if k0 = k then (k, v) :: rest else (k0, v0) :: assocSet rest k v

/-- Client.send (client.ts lines 266-290): allocate an id, build the envelope,
transmit it when initialized, else push it on sendQueue, and register the
promise in messagePromises.  There is no check of isConnectionDead and the
stored reject callback is never invoked. -/
def clientSend (s : CState) (ty : String) (body : Value) (now : Nat) : CState × Nat :=
  let a := getNextAvailableId s
  let m : Message := { type := ty, body := body, id := a.1, sent := now }
  let s2 := if a.2.initialized then { a.2 with wire := a.2.wire ++ [m] }
            else { a.2 with sendQueue := a.2.sendQueue ++ [m] }
  ({ s2 with messagePromises := assocSet s2.messagePromises a.1 m }, a.1)

/-- Client data handler, case "response" (client.ts lines 152-164): release
the id unconditionally, then, if a promise is registered under it, resolve and
delete it. -/
def handleResponse (s : CState) (rid : Nat) : CState :=
  let s1 := releaseId s rid
  if s1.messagePromises.any (fun e => e.1 == rid) then
    { s1 with messagePromises := s1.messagePromises.filter (fun e => e.1 != rid) }
  else s1

/-- The messagePromises entries surviving the reconnect listener (client.ts
lines 72-81): heartbeat entries are deleted, all others stay registered. -/
def survivingPromises (pending : List (Nat × Message)) : List (Nat × Message) :=
  pending.filter (fun e => e.2.type != "hb")

/-- The envelopes passed to Client.resend by the reconnect listener, in Map
iteration (= insertion) order: the stored data of every non-heartbeat
pending request, verbatim. -/
def resentMessages (pending : List (Nat × Message)) : List Message :=
  (pending.filter (fun e => e.2.type != "hb")).map (fun e => e.2)

/-- The reconnect listener registered in the constructor (client.ts lines
71-92), which fires after the heartbeat handler has already set
initialized = false: heartbeat promises are deleted, every other pending
envelope goes through resend (client.ts lines 291-294), whose
not-initialized branch pushes it onto sendQueue in iteration order. -/
def reconnectHandler (s : CState) : CState :=
  { s with initialized := false
         , messagePromises := survivingPromises s.messagePromises
         , sendQueue := s.sendQueue ++ resentMessages s.messagePromises }

/-- The conn open handler (client.ts lines 122-129): set initialized, send the
init envelope carrying the password (a full Client.send, so it is transmitted
at once and registered in messagePromises), then emptySendQueue (client.ts
lines 296-301), which transmits every queued envelope in order and does not
clear the queue. -/
def openHandler (s : CState) (password : String) (now : Nat) : CState :=
  let s1 := { s with initialized := true }
  let s2 := (clientSend s1 "init" (Value.str password) now).1
  { s2 with wire := s2.wire ++ s2.sendQueue }

/-- The client events the claims quantify over: a user send, an inbound
response envelope, the heartbeat-exhaustion reconnect, and the transport open
completing a (re)connection. -/
inductive ClientEvent where
  | sendEv (ty : String) (body : Value) (now : Nat)
  | responseEv (rid : Nat)
  | reconnectEv
  | openEv (password : String) (now : Nat)
deriving DecidableEq, Repr

def stepClient (s : CState) : ClientEvent → CState
  | .sendEv ty body now => (clientSend s ty body now).1
  | .responseEv rid => handleResponse s rid
  | .reconnectEv => reconnectHandler s
  | .openEv pw now => openHandler s pw now

def runClient (s : CState) (evs : List ClientEvent) : CState :=
  evs.foldl stepClient s

/-- Admissibility of a single event: a response envelope only ever names an
id the client itself put in an envelope (the server echoes data.metadata.id
of a received message), hence one below the running maxMessageId. -/
def eventOkB (s : CState) : ClientEvent → Bool
  | .responseEv rid => decide (rid < s.maxMessageId)
  | _ => true

/-- Admissible event sequences: every response event names a previously
issued id at the state where it arrives. -/
def admissibleB : CState → List ClientEvent → Bool
  | _, [] => true
  | s, e :: es => eventOkB s e && admissibleB (stepClient s e) es

/-- Ids of the currently outstanding pending requests. -/
def pendingIds (s : CState) : List Nat := s.messagePromises.map Prod.fst

/-- ID-pool invariant: outstanding ids are pairwise distinct, the free set has
no duplicates, every free or outstanding id was previously issued (is below
maxMessageId), and no free id is outstanding. -/
def PoolInv (s : CState) : Prop :=
  (pendingIds s).Nodup ∧
  s.availableMessageIds.Nodup ∧
  (∀ x ∈ s.availableMessageIds, x < s.maxMessageId) ∧
  (∀ k ∈ pendingIds s, k < s.maxMessageId) ∧
  (∀ x ∈ s.availableMessageIds, x ∉ pendingIds s)

lemma assocSet_of_not_mem {α β : Type} [DecidableEq α] (l : List (α × β)) (k : α) (v : β)
    (h : k ∉ l.map Prod.fst) : assocSet l k v = l ++ [(k, v)] := by
  induction l with
  | nil => rfl
  | cons a rest ih =>
      obtain ⟨k0, v0⟩ := a
      simp only [List.map_cons, List.mem_cons, not_or] at h
      have hne : ¬ k0 = k := fun he => h.1 he.symm
      simp only [assocSet, if_neg hne, List.cons_append]
      rw [ih h.2]

lemma clientSend_pool (s : CState) (ty : String) (b : Value) (now : Nat) :
    (clientSend s ty b now).1.availableMessageIds = (getNextAvailableId s).2.availableMessageIds ∧
    (clientSend s ty b now).1.maxMessageId = (getNextAvailableId s).2.maxMessageId ∧
    (clientSend s ty b now).1.messagePromises =
      assocSet s.messagePromises (getNextAvailableId s).1
        { type := ty, body := b, id := (getNextAvailableId s).1, sent := now } := by
  cases hA : s.availableMessageIds <;> by_cases hi : s.initialized <;>
    simp [clientSend, getNextAvailableId, hA, hi]

lemma poolInv_clientSend (s : CState) (ty : String) (b : Value) (now : Nat)
    (h : PoolInv s) : PoolInv (clientSend s ty b now).1 := by
  obtain ⟨h1, h2, h3, h4, h5⟩ := h
  obtain ⟨e1, e2, e3⟩ := clientSend_pool s ty b now
  unfold PoolInv pendingIds
  rw [e1, e2, e3]
  cases hA : s.availableMessageIds with
  | nil =>
      have hk : s.maxMessageId ∉ pendingIds s := fun hm => absurd (h4 _ hm) (lt_irrefl _)
      have hset := assocSet_of_not_mem s.messagePromises s.maxMessageId
        { type := ty, body := b, id := s.maxMessageId, sent := now } hk
      simp only [getNextAvailableId, hA]
      rw [hset]
      refine ⟨?_, ?_, ?_, ?_, ?_⟩
      · simp only [List.map_append, List.map_cons, List.map_nil]
        exact List.Nodup.append h1 (List.nodup_singleton _)
          (by intro x hx hy
              simp only [List.mem_singleton] at hy
              exact hk (hy ▸ hx))
      · simp
      · simp
      · intro k hk2
        simp only [List.map_append, List.map_cons, List.map_nil, List.mem_append,
          List.mem_singleton] at hk2
        rcases hk2 with hk2 | hk2
        · exact lt_trans (h4 _ hk2) (Nat.lt_succ_self _)
        · omega
      · simp
  | cons x rest =>
      have hxa : x ∈ s.availableMessageIds := by rw [hA]; exact List.mem_cons_self x rest
      have hk : x ∉ pendingIds s := h5 _ hxa
      have hset := assocSet_of_not_mem s.messagePromises x
        { type := ty, body := b, id := x, sent := now } hk
      simp only [getNextAvailableId, hA]
      rw [hset]
      have hrestnodup : rest.Nodup ∧ x ∉ rest := by
        rw [hA] at h2
        exact ⟨(List.nodup_cons.mp h2).2, (List.nodup_cons.mp h2).1⟩
      refine ⟨?_, hrestnodup.1, ?_, ?_, ?_⟩
      · simp only [List.map_append, List.map_cons, List.map_nil]
        exact List.Nodup.append h1 (List.nodup_singleton _)
          (by intro y hy hz
              simp only [List.mem_singleton] at hz
              exact hk (hz ▸ hy))
      · intro y hy
        exact h3 y (by rw [hA]; exact List.mem_cons_of_mem _ hy)
      · intro k hk2
        simp only [List.map_append, List.map_cons, List.map_nil, List.mem_append,
          List.mem_singleton] at hk2
        rcases hk2 with hk2 | hk2
        · exact h4 _ hk2
        · exact hk2 ▸ h3 _ hxa
      · intro y hy
        have hya : y ∈ s.availableMessageIds := by rw [hA]; exact List.mem_cons_of_mem _ hy
        simp only [List.map_append, List.map_cons, List.map_nil, List.mem_append,
          List.mem_singleton]
        rintro (hz | hz)
        · exact h5 _ hya hz
        · exact hrestnodup.2 (hz ▸ hy)

lemma mem_keys_filter {l : List (Nat × Message)} {p : Nat × Message → Bool} {x : Nat}
    (h : x ∈ (l.filter p).map Prod.fst) : x ∈ l.map Prod.fst :=
  List.Sublist.mem h ((List.filter_sublist l).map Prod.fst)

lemma nodup_keys_filter {l : List (Nat × Message)} {p : Nat × Message → Bool}
    (h : (l.map Prod.fst).Nodup) : ((l.filter p).map Prod.fst).Nodup :=
  List.Nodup.sublist ((List.filter_sublist l).map Prod.fst) h

lemma poolInv_reconnectHandler (s : CState) (h : PoolInv s) :
    PoolInv (reconnectHandler s) := by
  obtain ⟨h1, h2, h3, h4, h5⟩ := h
  refine ⟨nodup_keys_filter h1, h2, h3, ?_, ?_⟩
  · intro k hk
    exact h4 _ (mem_keys_filter hk)
  · intro x hx hk
    exact h5 x hx (mem_keys_filter hk)

lemma poolInv_handleResponse (s : CState) (rid : Nat) (hr : rid < s.maxMessageId)
    (h : PoolInv s) : PoolInv (handleResponse s rid) := by
  obtain ⟨h1, h2, h3, h4, h5⟩ := h
  unfold handleResponse releaseId
  by_cases hmem : rid ∈ s.availableMessageIds
  · rw [if_pos hmem]
    by_cases hany : s.messagePromises.any (fun e => e.1 == rid)
    · rw [if_pos hany]
      refine ⟨nodup_keys_filter h1, h2, h3, ?_, ?_⟩
      · intro k hk
        exact h4 _ (mem_keys_filter hk)
      · intro x hx hk
        exact h5 x hx (mem_keys_filter hk)
    · rw [if_neg hany]
      exact ⟨h1, h2, h3, h4, h5⟩
  · rw [if_neg hmem]
    have h2' : (s.availableMessageIds ++ [rid]).Nodup :=
      List.Nodup.append h2 (List.nodup_singleton _)
        (by intro x hx hy
            simp only [List.mem_singleton] at hy
            exact hmem (hy ▸ hx))
    have h3' : ∀ x ∈ s.availableMessageIds ++ [rid], x < s.maxMessageId := by
      intro x hx
      rcases List.mem_append.mp hx with hx | hx
      · exact h3 x hx
      · simp only [List.mem_singleton] at hx
        exact hx ▸ hr
    by_cases hany : s.messagePromises.any (fun e => e.1 == rid)
    · rw [if_pos hany]
      refine ⟨nodup_keys_filter h1, h2', h3', ?_, ?_⟩
      · intro k hk
        exact h4 _ (mem_keys_filter hk)
      · intro x hx hk
        rcases List.mem_append.mp hx with hx | hx
        · exact h5 x hx (mem_keys_filter hk)
        · simp only [List.mem_singleton] at hx
          subst hx
          obtain ⟨e, he, hex⟩ := List.mem_map.mp hk
          have := (List.mem_filter.mp he).2
          rw [hex] at this
          simp at this
    · rw [if_neg hany]
      refine ⟨h1, h2', h3', h4, ?_⟩
      · intro x hx hk
        rcases List.mem_append.mp hx with hx | hx
        · exact h5 x hx hk
        · simp only [List.mem_singleton] at hx
          obtain ⟨e, he, hex⟩ := List.mem_map.mp hk
          apply hany
          rw [List.any_eq_true]
          exact ⟨e, he, by rw [hex, hx]; simp⟩

lemma poolInv_openHandler (s : CState) (pw : String) (now : Nat) (h : PoolInv s) :
    PoolInv (openHandler s pw now) := by
  have h1 : PoolInv { s with initialized := true } := h
  have h2 : PoolInv (clientSend { s with initialized := true } "init" (Value.str pw) now).1 :=
    poolInv_clientSend _ _ _ _ h1
  exact h2

lemma poolInv_stepClient (s : CState) (e : ClientEvent) (h : PoolInv s)
    (ha : eventOkB s e = true) :
    PoolInv (stepClient s e) := by
  cases e with
  | sendEv ty b now => exact poolInv_clientSend s ty b now h
  | responseEv rid =>
      simp only [eventOkB, decide_eq_true_eq] at ha
      exact poolInv_handleResponse s rid ha h
  | reconnectEv => exact poolInv_reconnectHandler s h
  | openEv pw now => exact poolInv_openHandler s pw now h

lemma poolInv_runClient : ∀ (evs : List ClientEvent) (s : CState),
    PoolInv s → admissibleB s evs = true → PoolInv (runClient s evs) := by
  intro evs
  induction evs with
  | nil => intro s h _; exact h
  | cons e es ih =>
      intro s h hadm
      rw [admissibleB, Bool.and_eq_true] at hadm
      exact ih (stepClient s e) (poolInv_stepClient s e h hadm.1) hadm.2

/-- Claim C3: over every admissible sequence of client events, outstanding
pending-request ids are pairwise distinct, a fresh allocation never returns
an id held by an unresolved pending request, the free set holds only
previously issued ids not currently in use, and allocation pops the free set
when non-empty and otherwise returns and increments the monotonic counter. -/
theorem C3_id_pool_safety :
    ∀ (evs : List ClientEvent), admissibleB c0 evs = true →
    ((pendingIds (runClient c0 evs)).Nodup ∧
     (getNextAvailableId (runClient c0 evs)).1 ∉ pendingIds (runClient c0 evs) ∧
     (∀ x ∈ (runClient c0 evs).availableMessageIds,
        x < (runClient c0 evs).maxMessageId ∧ x ∉ pendingIds (runClient c0 evs)) ∧
     ((runClient c0 evs).availableMessageIds = [] →
        (getNextAvailableId (runClient c0 evs)).1 = (runClient c0 evs).maxMessageId ∧
        (getNextAvailableId (runClient c0 evs)).2.maxMessageId
          = (runClient c0 evs).maxMessageId + 1) ∧
     (∀ (x : Nat) (rest : List Nat), (runClient c0 evs).availableMessageIds = x :: rest →
        (getNextAvailableId (runClient c0 evs)).1 = x ∧
        (getNextAvailableId (runClient c0 evs)).2.availableMessageIds = rest)) := by
  intro evs hadm
  have hinv : PoolInv (runClient c0 evs) :=
    poolInv_runClient evs c0 (by refine ⟨?_, ?_, ?_, ?_, ?_⟩ <;> simp [c0, pendingIds]) hadm
  obtain ⟨h1, h2, h3, h4, h5⟩ := hinv
  refine ⟨h1, ?_, ?_, ?_, ?_⟩
  · cases hA : (runClient c0 evs).availableMessageIds with
    | nil =>
        simp only [getNextAvailableId, hA]
        intro hm
        exact absurd (h4 _ hm) (lt_irrefl _)
    | cons x rest =>
        simp only [getNextAvailableId, hA]
        exact h5 x (by rw [hA]; exact List.mem_cons_self x rest)
  · intro x hx
    exact ⟨h3 x hx, h5 x hx⟩
  · intro hA
    simp [getNextAvailableId, hA]
  · intro x rest hA
    simp [getNextAvailableId, hA]

/-- Claim C3 witness: a concrete admissible trace (send, matching response,
send) after which a fresh allocation avoids the outstanding id. -/
theorem C3_id_pool_safety_witness :
    admissibleB c0 [ClientEvent.sendEv "post/a" (Value.num 1) 5,
                    ClientEvent.responseEv 0,
                    ClientEvent.sendEv "post/b" (Value.num 2) 6] = true ∧
    (getNextAvailableId (runClient c0 [ClientEvent.sendEv "post/a" (Value.num 1) 5,
                    ClientEvent.responseEv 0,
                    ClientEvent.sendEv "post/b" (Value.num 2) 6])).1 ∉
      pendingIds (runClient c0 [ClientEvent.sendEv "post/a" (Value.num 1) 5,
                    ClientEvent.responseEv 0,
                    ClientEvent.sendEv "post/b" (Value.num 2) 6]) :=
  ⟨by decide,
   (C3_id_pool_safety [ClientEvent.sendEv "post/a" (Value.num 1) 5,
                    ClientEvent.responseEv 0,
                    ClientEvent.sendEv "post/b" (Value.num 2) 6] (by decide)).2.1⟩

lemma mem_keys_assocSet {α β : Type} [DecidableEq α] (l : List (α × β)) (k : α) (v : β) :
    k ∈ (assocSet l k v).map Prod.fst := by
  induction l with
  | nil => simp [assocSet]
  | cons a rest ih =>
      obtain ⟨k0, v0⟩ := a
      by_cases he : k0 = k
      · simp [assocSet, he]
      · simp only [assocSet, if_neg he, List.map_cons, List.mem_cons]
        exact Or.inr ih

lemma clientSend_out (s : CState) (ty : String) (b : Value) (now : Nat) :
    ((clientSend s ty b now).1.wire =
       if s.initialized then
         s.wire ++ [{ type := ty, body := b, id := (getNextAvailableId s).1, sent := now }]
       else s.wire) ∧
    ((clientSend s ty b now).1.sendQueue =
       if s.initialized then s.sendQueue
       else s.sendQueue ++ [{ type := ty, body := b, id := (getNextAvailableId s).1, sent := now }]) ∧
    (clientSend s ty b now).1.initialized = s.initialized ∧
    (clientSend s ty b now).1.isConnectionDead = s.isConnectionDead ∧
    (clientSend s ty b now).1.rejectedIds = s.rejectedIds := by
  cases hA : s.availableMessageIds <;> by_cases hi : s.initialized <;>
    simp [clientSend, getNextAvailableId, hA, hi]

lemma gnai_fst_reconnect (s : CState) :
    (getNextAvailableId (reconnectHandler s)).1 = (getNextAvailableId s).1 := by
  cases hA : s.availableMessageIds <;> simp [reconnectHandler, getNextAvailableId, hA]

lemma openHandler_wire (s : CState) (pw : String) (now : Nat) :
    (openHandler s pw now).wire =
      s.wire ++ [{ type := "init", body := Value.str pw,
                   id := (getNextAvailableId s).1, sent := now }] ++ s.sendQueue := by
  cases hA : s.availableMessageIds <;> simp [openHandler, clientSend, getNextAvailableId, hA]

lemma runClient_cons (s : CState) (e : ClientEvent) (es : List ClientEvent) :
    runClient s (e :: es) = runClient (stepClient s e) es := rfl

/-- Claim C4 (amended): after a forced reconnect (the reconnect listener
runs, then the new connection opens), with an empty send queue at the moment
of the disconnection, the wire carries the fresh init envelope followed by
exactly the non-heartbeat pending envelopes, verbatim and in registration
order; heartbeat pending requests are deleted and never retransmitted.  With
a non-empty queue the claim fails: emptySendQueue never clears the queue, so
its stale envelopes are flushed again ahead of the resends and a pending
envelope still in the queue goes out twice (see the counterexample). -/
theorem C4_resend_verbatim :
    ∀ (s : CState) (pw : String) (now : Nat),
    s.sendQueue = [] →
    ((openHandler (reconnectHandler s) pw now).wire =
        s.wire ++ [{ type := "init", body := Value.str pw,
                     id := (getNextAvailableId s).1, sent := now }]
          ++ resentMessages s.messagePromises) ∧
    (resentMessages s.messagePromises).length =
      (s.messagePromises.filter (fun e => e.2.type != "hb")).length ∧
    (∀ m ∈ resentMessages s.messagePromises, m.type ≠ "hb" ∧ ∃ k, (k, m) ∈ s.messagePromises) ∧
    (∀ (k : Nat) (m : Message), (k, m) ∈ s.messagePromises → m.type ≠ "hb" →
        m ∈ resentMessages s.messagePromises) ∧
    (reconnectHandler s).messagePromises
      = s.messagePromises.filter (fun e => e.2.type != "hb") := by
  intro s pw now hq
  refine ⟨?_, ?_, ?_, ?_, rfl⟩
  · rw [openHandler_wire, gnai_fst_reconnect]
    simp [reconnectHandler, hq, resentMessages]
  · simp [resentMessages]
  · intro m hm
    obtain ⟨e, he, hem⟩ := List.mem_map.mp hm
    have hf := List.mem_filter.mp he
    refine ⟨?_, e.1, ?_⟩
    · rw [← hem]
      exact bne_iff_ne.mp hf.2
    · rw [← hem]
      exact hf.1
  · intro k m hm hty
    exact List.mem_map.mpr ⟨(k, m), List.mem_filter.mpr ⟨hm, bne_iff_ne.mpr hty⟩, rfl⟩

/-- A pending heartbeat request, used in concrete examples. -/
def hbMsgEx : Message := { type := "hb", body := Value.bool true, id := 0, sent := 1 }

/-- A pending application request, used in concrete examples. -/
def postMsgEx : Message := { type := "post/x", body := Value.str "hi", id := 1, sent := 2 }

/-- A client with one heartbeat and one post request outstanding and an empty
send queue, as left by an active session that just lost its heartbeats. -/
def s4w : CState := { c0 with messagePromises := [(0, hbMsgEx), (1, postMsgEx)], maxMessageId := 2 }

/-- Claim C4 witness: that client retransmits exactly the post envelope,
verbatim, after the fresh init envelope; the heartbeat is dropped. -/
theorem C4_resend_verbatim_witness :
    s4w.sendQueue = [] ∧
    (openHandler (reconnectHandler s4w) "pw" 9).wire =
      [{ type := "init", body := Value.str "pw", id := 2, sent := 9 }, postMsgEx] :=
  ⟨rfl, by
    have h := (C4_resend_verbatim s4w "pw" 9 rfl).1
    simpa [s4w, c0, resentMessages, hbMsgEx, postMsgEx, getNextAvailableId] using h⟩

/-- An admissible history reaching a forced reconnect with a stale send
queue: a post request is sent while disconnected (queued and registered), the
connection opens (the queue is flushed but, per emptySendQueue, never
cleared) and the init response arrives; the post request stays outstanding
and its envelope stays in sendQueue. -/
def preReconnectTrace : List ClientEvent :=
  [ClientEvent.sendEv "post/x" (Value.str "hi") 1,
   ClientEvent.openEv "pw" 2,
   ClientEvent.responseEv 1]

/-- The client state reached by that history. -/
def sStale : CState := runClient c0 preReconnectTrace

/-- Claim C4 counterexample: at the reachable state sStale there is exactly
one outstanding non-heartbeat pending request (the post envelope, which also
still sits in the never-cleared send queue), yet the transmissions following
the forced reconnect are the fresh init envelope and then that post envelope
TWICE - once from the stale queue entry, once from the resend - so more than
N request envelopes are retransmitted and the claim's exactly-N fails. -/
theorem C4_counterexample :
    admissibleB c0 preReconnectTrace = true ∧
    survivingPromises sStale.messagePromises
      = [(0, { type := "post/x", body := Value.str "hi", id := 0, sent := 1 })] ∧
    List.drop sStale.wire.length (openHandler (reconnectHandler sStale) "pw" 9).wire
      = [{ type := "init", body := Value.str "pw", id := 1, sent := 9 },
         { type := "post/x", body := Value.str "hi", id := 0, sent := 1 },
         { type := "post/x", body := Value.str "hi", id := 0, sent := 1 }] ∧
    (List.drop sStale.wire.length
        (openHandler (reconnectHandler sStale) "pw" 9).wire).count
      { type := "post/x", body := Value.str "hi", id := 0, sent := 1 } = 2 := by
  decide

lemma runSends_not_initialized :
    ∀ (xs : List (String × Value × Nat)) (u : CState), u.initialized = false →
    ∃ newMsgs : List Message,
      (runClient u (xs.map (fun x => ClientEvent.sendEv x.1 x.2.1 x.2.2))).wire = u.wire ∧
      (runClient u (xs.map (fun x => ClientEvent.sendEv x.1 x.2.1 x.2.2))).sendQueue
        = u.sendQueue ++ newMsgs ∧
      (runClient u (xs.map (fun x => ClientEvent.sendEv x.1 x.2.1 x.2.2))).initialized = false ∧
      newMsgs.length = xs.length := by
  intro xs
  induction xs with
  | nil =>
      intro u hu
      exact ⟨[], rfl, by simp [runClient], hu, rfl⟩
  | cons x rest ih =>
      intro u hu
      obtain ⟨hw, hq, hi, hd, hr⟩ := clientSend_out u x.1 x.2.1 x.2.2
      rw [hu] at hw hq
      simp only [if_neg Bool.false_ne_true] at hw hq
      obtain ⟨newMsgs, ihw, ihq, ihi, ihl⟩ :=
        ih (clientSend u x.1 x.2.1 x.2.2).1 (by rw [hi]; exact hu)
      have hstep : stepClient u (ClientEvent.sendEv x.1 x.2.1 x.2.2)
          = (clientSend u x.1 x.2.1 x.2.2).1 := rfl
      refine ⟨{ type := x.1, body := x.2.1, id := (getNextAvailableId u).1, sent := x.2.2 }
                :: newMsgs, ?_, ?_, ?_, ?_⟩
      · rw [List.map_cons, runClient_cons, hstep, ihw, hw]
      · rw [List.map_cons, runClient_cons, hstep, ihq, hq, List.append_assoc]
        rfl
      · rw [List.map_cons, runClient_cons, hstep]
        exact ihi
      · simp [ihl]

/-- Claim C5: across a reconnect, every resent pending request is transmitted
before every envelope that is newly queued while disconnected: the flushed
wire appends, after the init envelope, first the queue as it stood at the
disconnection (ending in the resent pending envelopes) and only then the
envelopes of the sends performed while disconnected. -/
theorem C5_resent_before_new :
    ∀ (s : CState) (xs : List (String × Value × Nat)) (pw : String) (now : Nat),
    ∃ (initId : Nat) (newMsgs : List Message),
      (openHandler (runClient (reconnectHandler s)
          (xs.map (fun x => ClientEvent.sendEv x.1 x.2.1 x.2.2))) pw now).wire
        = s.wire ++ [{ type := "init", body := Value.str pw, id := initId, sent := now }]
            ++ (s.sendQueue ++ resentMessages s.messagePromises) ++ newMsgs ∧
      newMsgs.length = xs.length := by
  intro s xs pw now
  obtain ⟨newMsgs, hw, hq, hi, hl⟩ :=
    runSends_not_initialized xs (reconnectHandler s) rfl
  refine ⟨(getNextAvailableId (runClient (reconnectHandler s)
      (xs.map (fun x => ClientEvent.sendEv x.1 x.2.1 x.2.2)))).1, newMsgs, ?_, hl⟩
  rw [openHandler_wire, hw, hq]
  simp [reconnectHandler, List.append_assoc]

/-- Claim C9 counterexample: with the connection marked permanently dead, a
send is not rejected at all: the envelope is pushed onto the send queue, the
pending request stays registered, and no reject callback runs. -/
theorem C9_counterexample :
    ((clientSend { c0 with isConnectionDead := true } "post/x" (Value.str "hi") 7).1.rejectedIds
       = []) ∧
    ((clientSend { c0 with isConnectionDead := true } "post/x" (Value.str "hi") 7).1.sendQueue
       = [{ type := "post/x", body := Value.str "hi", id := 0, sent := 7 }]) ∧
    ((clientSend { c0 with isConnectionDead := true } "post/x" (Value.str "hi") 7).1.messagePromises
       = [(0, { type := "post/x", body := Value.str "hi", id := 0, sent := 7 })]) := by
  decide

/-- Claim C9 (amended): Client.send never rejects the returned future,
whatever isConnectionDead reports: the envelope is transmitted when
initialized and queued otherwise, the pending request is registered under the
allocated id, and the rejected set is unchanged (no code path in client.ts
invokes a stored reject callback). -/
theorem C9_send_never_rejects :
    ∀ (s : CState) (ty : String) (b : Value) (now : Nat),
    (clientSend s ty b now).1.rejectedIds = s.rejectedIds ∧
    (clientSend s ty b now).1.isConnectionDead = s.isConnectionDead ∧
    (clientSend s ty b now).1.wire =
      (if s.initialized then
         s.wire ++ [{ type := ty, body := b, id := (getNextAvailableId s).1, sent := now }]
       else s.wire) ∧
    (clientSend s ty b now).1.sendQueue =
      (if s.initialized then s.sendQueue
       else s.sendQueue ++ [{ type := ty, body := b, id := (getNextAvailableId s).1, sent := now }]) ∧
    (getNextAvailableId s).1 ∈ pendingIds (clientSend s ty b now).1 := by
  intro s ty b now
  obtain ⟨hw, hq, _, hd, hr⟩ := clientSend_out s ty b now
  refine ⟨hr, hd, hw, hq, ?_⟩
  have h3 := (clientSend_pool s ty b now).2.2
  unfold pendingIds
  rw [h3]
  exact mem_keys_assocSet _ _ _

/- Heartbeat monitor (client.ts lines 131-144) and the connect-timeout
watchdog (client.ts lines 98-107). -/

/-- Signals delivered to the client's listener arrays: the heartbeat handler
fires the reconnect listeners, other paths (server-sent disconnect, the
connect-timeout watchdog) fire the disconnect listeners. -/
inductive ClientSignal where
  | reconnectSignal
  | disconnectSignal
deriving DecidableEq, Repr

/-- The client fields the heartbeat interval reads and writes. -/
structure HbState where
  heartbeatDelta : Int
  initialized : Bool
  isConnectionDead : Bool
  timerActive : Bool
deriving DecidableEq, Repr

/-- Outcome of one heartbeat period: the new state, the signal emitted to
listeners (if any) and whether a heartbeat request was sent. -/
structure TickResult where
  state : HbState
  emitted : Option ClientSignal
  hbSent : Bool
deriving DecidableEq, Repr

/-- One firing of the heartbeat interval (client.ts lines 131-144): when the
miss count has reached 3, set initialized to false, clear the interval, and
fire the reconnect listeners unless the connection is already marked dead
(isConnectionDead itself is not written here); otherwise increment the miss
count and send a heartbeat request. -/
def hbTick (s : HbState) : TickResult :=
  if s.timerActive then
    if 3 ≤ s.heartbeatDelta then
      { state := { s with initialized := false, timerActive := false }
      , emitted := if s.isConnectionDead then none else some ClientSignal.reconnectSignal
      , hbSent := false }
    else
      { state := { s with heartbeatDelta := s.heartbeatDelta + 1 }
      , emitted := none
      , hbSent := true }
  else
    { state := s, emitted := none, hbSent := false }

/-- Resolution of a heartbeat response (client.ts lines 141-143): the miss
count is decremented. -/
def hbResponse (s : HbState) : HbState :=
  { s with heartbeatDelta := s.heartbeatDelta - 1 }

/-- The connect-timeout watchdog (client.ts lines 98-107): if the session is
not initialized when it fires, it marks it initialized and dead and fires the
disconnect listeners; this is the code path that emits the disconnect
signal. -/
def timeoutWatchdogFire (s : HbState) : HbState × Option ClientSignal :=
  if s.initialized then (s, none)
  else ({ s with initialized := true, isConnectionDead := true },
        some ClientSignal.disconnectSignal)

inductive HbOp where
  | tick
  | response
deriving DecidableEq, Repr

def runHb : HbState → List HbOp → HbState
  | s, [] => s
  | s, HbOp.tick :: rest => runHb (hbTick s).state rest
  | s, HbOp.response :: rest => runHb (hbResponse s) rest

/-- A run of n heartbeat periods in which every heartbeat is answered before
the next period fires. -/
def altOps : Nat → List HbOp
  | 0 => []
  | n + 1 => HbOp.tick :: HbOp.response :: altOps n

/-- The state of a freshly opened healthy session: miss count 0, session
initialized, heartbeat interval armed. -/
def hb0 (dead : Bool) : HbState :=
  { heartbeatDelta := 0, initialized := true, isConnectionDead := dead, timerActive := true }

/-- A session at miss count 3, healthy flags, used as the concrete input of
the counterexample. -/
def hb3 : HbState :=
  { heartbeatDelta := 3, initialized := true, isConnectionDead := false, timerActive := true }

/-- Claim C7 counterexample: at miss count 3 the heartbeat handler emits the
reconnect signal, not a disconnect signal, and leaves isConnectionDead
untouched (the session is not marked dead), contradicting the claim that the
client marks the session dead and emits a disconnect event. -/
theorem C7_counterexample :
    (hbTick hb3).emitted = some ClientSignal.reconnectSignal ∧
    (hbTick hb3).emitted ≠ some ClientSignal.disconnectSignal ∧
    (hbTick hb3).state.isConnectionDead = false := by
  decide

/-- Claim C7 (amended): on each heartbeat period, if the miss count has
reached 3 the client stops the timer, marks the session uninitialized (not
dead) and emits a reconnect signal unless the connection is already marked
dead; otherwise it increments the miss counter and sends a heartbeat, and a
response decrements the counter.  Hence a session whose every heartbeat is
answered before the next period never leaves the healthy state, for runs of
any length, while a session missing consecutive heartbeats always stops its
timer within 4 unanswered periods from any nonnegative miss count. -/
theorem C7_heartbeat_policy :
    ∀ (s : HbState) (dead : Bool) (n : Nat),
    (s.timerActive = true → 3 ≤ s.heartbeatDelta →
      hbTick s = { state := { s with initialized := false, timerActive := false }
                 , emitted := if s.isConnectionDead then none
                              else some ClientSignal.reconnectSignal
                 , hbSent := false }) ∧
    (s.timerActive = true → s.heartbeatDelta < 3 →
      hbTick s = { state := { s with heartbeatDelta := s.heartbeatDelta + 1 }
                 , emitted := none, hbSent := true }) ∧
    (hbResponse s).heartbeatDelta = s.heartbeatDelta - 1 ∧
    runHb (hb0 dead) (altOps n) = hb0 dead ∧
    (s.timerActive = true → 0 ≤ s.heartbeatDelta →
      (runHb s (List.replicate 4 HbOp.tick)).timerActive = false) := by
  intro s dead n
  refine ⟨?_, ?_, rfl, ?_, ?_⟩
  · intro ht h3
    simp [hbTick, ht, h3]
  · intro ht h3
    simp [hbTick, ht, not_le.mpr h3]
  · induction n with
    | zero => rfl
    | succ m ihm =>
        rw [altOps, runHb, runHb]
        have h1 : (hbTick (hb0 dead)).state = { hb0 dead with heartbeatDelta := 1 } := by
          simp [hbTick, hb0]
        have h2 : hbResponse { hb0 dead with heartbeatDelta := 1 } = hb0 dead := by
          simp [hbResponse, hb0]
        rw [h1, h2]
        exact ihm
  · intro ht h0
    have hstop : ∀ (ops : List HbOp), (∀ o ∈ ops, o = HbOp.tick) →
        ∀ (u : HbState), u.timerActive = false → (runHb u ops).timerActive = false := by
      intro ops
      induction ops with
      | nil => intro _ u hu; exact hu
      | cons o rest ihr =>
          intro hall u hu
          have ho : o = HbOp.tick := hall o (List.mem_cons_self o rest)
          subst ho
          rw [runHb]
          have he : hbTick u = { state := u, emitted := none, hbSent := false } := by
            simp [hbTick, hu]
          rw [he]
          exact ihr (fun o ho => hall o (List.mem_cons_of_mem _ ho)) u hu
    have hrep : ∀ k : Nat, ∀ o ∈ List.replicate k HbOp.tick, o = HbOp.tick := by
      intro k o ho
      exact List.eq_of_mem_replicate ho
    by_cases h1 : 3 ≤ s.heartbeatDelta
    · have hs1 : (hbTick s).state.timerActive = false := by simp [hbTick, ht, h1]
      show (runHb (hbTick s).state (List.replicate 3 HbOp.tick)).timerActive = false
      exact hstop _ (hrep 3) _ hs1
    · have e1 : (hbTick s).state = { s with heartbeatDelta := s.heartbeatDelta + 1 } := by
        simp [hbTick, ht, h1]
      show (runHb (hbTick s).state (List.replicate 3 HbOp.tick)).timerActive = false
      rw [e1]
      by_cases h2 : 3 ≤ s.heartbeatDelta + 1
      · have hs2 : (hbTick { s with heartbeatDelta := s.heartbeatDelta + 1 }).state.timerActive
            = false := by simp [hbTick, ht, h2]
        show (runHb (hbTick { s with heartbeatDelta := s.heartbeatDelta + 1 }).state
          (List.replicate 2 HbOp.tick)).timerActive = false
        exact hstop _ (hrep 2) _ hs2
      · have e2 : (hbTick { s with heartbeatDelta := s.heartbeatDelta + 1 }).state
            = { s with heartbeatDelta := s.heartbeatDelta + 1 + 1 } := by
          simp [hbTick, ht, h2]
        show (runHb (hbTick { s with heartbeatDelta := s.heartbeatDelta + 1 }).state
          (List.replicate 2 HbOp.tick)).timerActive = false
        rw [e2]
        by_cases h4 : 3 ≤ s.heartbeatDelta + 1 + 1
        · have hs3 : (hbTick { s with heartbeatDelta := s.heartbeatDelta + 1 + 1 }).state.timerActive
              = false := by simp [hbTick, ht, h4]
          show (runHb (hbTick { s with heartbeatDelta := s.heartbeatDelta + 1 + 1 }).state
            (List.replicate 1 HbOp.tick)).timerActive = false
          exact hstop _ (hrep 1) _ hs3
        · have e3 : (hbTick { s with heartbeatDelta := s.heartbeatDelta + 1 + 1 }).state
              = { s with heartbeatDelta := s.heartbeatDelta + 1 + 1 + 1 } := by
            simp [hbTick, ht, h4]
          show (runHb (hbTick { s with heartbeatDelta := s.heartbeatDelta + 1 + 1 }).state
            (List.replicate 1 HbOp.tick)).timerActive = false
          rw [e3]
          have h5 : 3 ≤ s.heartbeatDelta + 1 + 1 + 1 := by omega
          show (runHb (hbTick { s with heartbeatDelta := s.heartbeatDelta + 1 + 1 + 1 }).state
            (List.replicate 0 HbOp.tick)).timerActive = false
          have hs4 : (hbTick { s with heartbeatDelta := s.heartbeatDelta + 1 + 1 + 1 }).state.timerActive
              = false := by simp [hbTick, ht, h5]
          rw [List.replicate]
          exact hs4

/-- Claim C7 witness: a healthy session at miss count 0 stays unchanged over
three answered periods, and stops its timer within four unanswered ones. -/
theorem C7_heartbeat_policy_witness :
    ((hb0 false).timerActive = true ∧ (0 : Int) ≤ (hb0 false).heartbeatDelta) ∧
    runHb (hb0 false) (altOps 3) = hb0 false ∧
    (runHb (hb0 false) (List.replicate 4 HbOp.tick)).timerActive = false :=
  ⟨⟨rfl, by decide⟩,
   (C7_heartbeat_policy (hb0 false) false 3).2.2.2.1,
   (C7_heartbeat_policy (hb0 false) false 3).2.2.2.2 rfl (by decide)⟩

/- Server variable handling (server.ts). -/

/-- Observable outcome of the server handling one inbound var envelope with
action "set" on an active variable. -/
structure VarSetResult where
  var : VarState
  broadcast : Bool
  broadcastValue : Option Value
  listenersNotified : Bool
  responded200 : Bool
deriving DecidableEq, Repr

/-- Server data handler, case "var", action "set", mode "active" (server.ts
lines 180-192) combined with Server.onVariableChange (lines 409-427), which
runs as the variable's onChange callback and therefore only when the write is
applied: it broadcasts the post-write value to every connection
unconditionally, then notifies the local variable listeners only when the
post-write value differs from the pre-write value passed to the callback.
The sender is answered with a status-200 response in both cases. -/
def serverHandleActiveVarSet (v : VarState) (value : Value) (fromId : String)
    (time : Nat) : VarSetResult :=
  let r := ActiveVariable.set v value fromId time true
  { var := r.state
  , broadcast := r.onChangeFired
  , broadcastValue := if r.onChangeFired then some r.state.value else none
  , listenersNotified := r.onChangeFired && decide (r.state.value ≠ v.value)
  , responded200 := true }

/-- An active variable that has already seen a write from peer B at time 5,
used as the concrete input of the counterexample. -/
def vB5 : VarState := { value := Value.str "x", lastUpdate := 5, lastUpdater := "B" }

/-- Claim C6 counterexample: an inbound set losing the LWW comparison (time 3
against stored time 5) produces no broadcast at all: set returns false
without invoking onChange, so nothing is re-broadcast, contradicting the
claim that a losing write is still broadcast. -/
theorem C6_counterexample :
    (serverHandleActiveVarSet vB5 (Value.str "y") "A" 3).broadcast = false ∧
    (serverHandleActiveVarSet vB5 (Value.str "y") "A" 3).broadcastValue = none ∧
    (ActiveVariable.set vB5 (Value.str "y") "A" 3 true).applied = false := by
  decide

/-- Claim C6 (amended): the server re-broadcasts the resulting value to all
connections iff the incoming write is applied under the LWW rule - in
particular an applied write whose value equals the pre-write value is still
broadcast - while local listeners are notified iff the write is applied and
the resulting value differs from the pre-write value; a losing write produces
no broadcast and no notification, and the sender is answered 200 in every
case. -/
theorem C6_broadcast_iff_applied :
    ∀ (v : VarState) (value : Value) (fromId : String) (time : Nat),
    ((serverHandleActiveVarSet v value fromId time).broadcast
       = (ActiveVariable.set v value fromId time true).applied) ∧
    ((serverHandleActiveVarSet v value fromId time).broadcast = true ↔
       (v.lastUpdate < time ∨ (v.lastUpdate = time ∧ v.lastUpdater.data < fromId.data))) ∧
    ((serverHandleActiveVarSet v value fromId time).broadcast = true →
       (serverHandleActiveVarSet v value fromId time).broadcastValue
         = some (serverHandleActiveVarSet v value fromId time).var.value) ∧
    ((serverHandleActiveVarSet v value fromId time).listenersNotified = true ↔
       ((v.lastUpdate < time ∨ (v.lastUpdate = time ∧ v.lastUpdater.data < fromId.data)) ∧
        (serverHandleActiveVarSet v value fromId time).var.value ≠ v.value)) ∧
    (serverHandleActiveVarSet v value fromId time).responded200 = true := by
  intro v value fromId time
  by_cases hc : v.lastUpdate < time ∨ (v.lastUpdate = time ∧ v.lastUpdater.data < fromId.data)
  · refine ⟨?_, ?_, ?_, ?_, rfl⟩ <;>
      simp [serverHandleActiveVarSet, ActiveVariable.set, hc]
  · refine ⟨?_, ?_, ?_, ?_, rfl⟩ <;>
      simp [serverHandleActiveVarSet, ActiveVariable.set, hc]

/-- Claim C6 witness: a winning duplicate write (newer time, same value) is
broadcast even though no listener is notified. -/
theorem C6_broadcast_iff_applied_witness :
    (serverHandleActiveVarSet vB5 (Value.str "x") "A" 9).broadcast = true ∧
    (serverHandleActiveVarSet vB5 (Value.str "x") "A" 9).listenersNotified = false :=
  ⟨((C6_broadcast_iff_applied vB5 (Value.str "x") "A" 9).2.1).mpr (by decide),
   by
    have h := ((C6_broadcast_iff_applied vB5 (Value.str "x") "A" 9).2.2.2.1)
    by_contra hn
    have := h.mp (by revert hn; cases hx : (serverHandleActiveVarSet vB5 (Value.str "x") "A" 9).listenersNotified <;> simp)
    exact this.2 (by decide)⟩

/- Server init handling and the variable snapshot (server.ts). -/

/-- The server's two variable maps (server.ts lines 57-60), in insertion
order. -/
structure ServerVars where
  active : List (String × VarState)
  lazy : List (String × VarState)
deriving DecidableEq, Repr

/-- Server.getActiveVarData (server.ts lines 214-222): name and current value
of every entry of the active map. -/
def getActiveVarData (s : ServerVars) : List (String × Value) :=
  s.active.map (fun e => (e.1, e.2.value))

/-- Server.getLazyVarData (server.ts lines 224-230): the loop comment says
loop through lazies, but the code iterates globalVars.active, so the result
is the list of ACTIVE variable names. -/
def getLazyVarData (s : ServerVars) : List String :=
  s.active.map (fun e => e.1)

/-- The snapshot sent in the init response body (server.ts lines 125-135). -/
structure VarSnapshot where
  activeData : List (String × Value)
  lazyNames : List String
deriving DecidableEq, Repr

/-- Observable outcome of the server handling one inbound init envelope. -/
structure InitResult where
  authed : Bool
  response : Option VarSnapshot
  disconnectReason : Option String
  countDelta : Int
deriving DecidableEq, Repr

/-- Server data handler, case "init" (server.ts lines 122-143): a matching
password marks the connection authenticated, answers status 200 with the
variable snapshot and increments connectionCount; a mismatch sends a
disconnect envelope with reason "password" and leaves everything else
untouched. -/
def handleInit (password : String) (vars : ServerVars) (connInit : Bool)
    (body : String) : InitResult :=
  if body = password then
    { authed := true
    , response := some { activeData := getActiveVarData vars, lazyNames := getLazyVarData vars }
    , disconnectReason := none
    , countDelta := 1 }
  else
    { authed := connInit
    , response := none
    , disconnectReason := some "password"
    , countDelta := 0 }

/-- A server holding one active variable A and one lazy variable L. -/
def demoVars : ServerVars :=
  { active := [("A", { value := Value.num 1, lastUpdate := 0, lastUpdater := "" })]
  , lazy := [("L", { value := Value.null, lastUpdate := 0, lastUpdater := "" })] }

/-- Claim C8: evaluation at the failing input.  With active variable A and
lazy variable L, a correct-password init is authenticated and answered with a
status-200 snapshot, but the snapshot's lazy list is the list of ACTIVE
variable names (A), not the lazy variable names (L), because getLazyVarData
iterates globalVars.active despite its loop-through-lazies comment; the
wrong-password path behaves as claimed (disconnect "password", no snapshot,
still unauthenticated). -/
theorem C8_snapshot_eval :
    (handleInit "pw" demoVars false "pw").authed = true ∧
    (handleInit "pw" demoVars false "pw").response
      = some { activeData := [("A", Value.num 1)], lazyNames := ["A"] } ∧
    demoVars.lazy.map (fun e => e.1) = ["L"] ∧
    getLazyVarData demoVars ≠ demoVars.lazy.map (fun e => e.1) ∧
    (handleInit "pw" demoVars false "bad").authed = false ∧
    (handleInit "pw" demoVars false "bad").response = none ∧
    (handleInit "pw" demoVars false "bad").disconnectReason = some "password" := by
  decide

/- Server connection registry (server.ts). -/

/-- Per-connection record (server.ts lines 3-7): last heartbeat time and the
authentication flag set by a successful init. -/
structure ConnRec where
  hb : Nat
  init : Bool
deriving DecidableEq, Repr

/-- The server's connection registry together with the connectionCount field
behind the public connections getter (server.ts lines 32-34, 283-284). -/
structure ServerConns where
  conns : List (String × ConnRec)
  connectionCount : Int
deriving DecidableEq, Repr

/-- Registry-mutating events: an inbound transport connection (server.ts
lines 94-104), an inbound init envelope (lines 122-143, abstracted to whether
the body matched the password), an inbound disconnect confirmation (lines
176-179), and one firing of the heartbeat-timeout sweep (lines 269-274). -/
inductive ServerEvent where
  | connectEv (peer : String) (now : Nat)
  | initEv (peer : String) (passwordOk : Bool)
  | disconnectConfirmEv (peer : String)
  | sweepEv (now : Nat) (period : Nat)
deriving DecidableEq, Repr

/-- Server.closeConnection (server.ts lines 276-281): close and remove the
channel and decrement connectionCount, whether or not the connection ever
authenticated. -/
def closeConnection (s : ServerConns) (peer : String) : ServerConns :=
  { conns := s.conns.filter (fun e => e.1 != peer)
  , connectionCount := s.connectionCount - 1 }

/-- The eviction test of Server.trimHeartless (server.ts lines 269-274): the
record's last heartbeat is older than now minus three heartbeat periods. -/
def heartless (now period : Nat) (e : String × ConnRec) : Bool :=
  decide ((e.2.hb : Int) < (now : Int) - (period : Int) * 3)

def serverStep (s : ServerConns) : ServerEvent → ServerConns
  | .connectEv peer now =>
      { s with conns := assocSet s.conns peer { hb := now, init := false } }
  | .initEv peer ok =>
      match s.conns.lookup peer with
      | none => s
      | some r =>
          if ok then
            { conns := assocSet s.conns peer { r with init := true }
            , connectionCount := s.connectionCount + 1 }
          else s
  | .disconnectConfirmEv peer =>
      match s.conns.lookup peer with
      | none => s
      | some _ => closeConnection s peer
  | .sweepEv now period =>
      { conns := s.conns.filter (fun e => !(heartless now period e))
      , connectionCount :=
          s.connectionCount - ((s.conns.filter (heartless now period)).length : Int) }

def serverRun (s : ServerConns) (evs : List ServerEvent) : ServerConns :=
  evs.foldl serverStep s

/-- The number of registry entries that have completed a successful init. -/
def authedCount (s : ServerConns) : Nat :=
  (s.conns.filter (fun e => e.2.init)).length

/-- The server's initial registry state. -/
def s0Server : ServerConns := { conns := [], connectionCount := 0 }

/-- Claim C10 counterexample: a connection that registers and is then evicted
by the heartbeat sweep without ever authenticating drives connectionCount to
-1 while the registry holds no authenticated entry, so the getter is negative
and differs from the number of authenticated connections. -/
theorem C10_counterexample :
    (serverRun s0Server [ServerEvent.connectEv "A" 0,
        ServerEvent.sweepEv 10 1]).connectionCount = -1 ∧
    authedCount (serverRun s0Server [ServerEvent.connectEv "A" 0,
        ServerEvent.sweepEv 10 1]) = 0 ∧
    (serverRun s0Server [ServerEvent.connectEv "A" 0,
        ServerEvent.sweepEv 10 1]).connectionCount < 0 ∧
    (serverRun s0Server [ServerEvent.connectEv "A" 0,
        ServerEvent.sweepEv 10 1]).connectionCount ≠
      (authedCount (serverRun s0Server [ServerEvent.connectEv "A" 0,
        ServerEvent.sweepEv 10 1]) : Int) := by
  decide

/-- Claim C10 (amended): the public connections getter is a running counter,
not the number of authenticated registry entries: registering a connection
leaves it unchanged, every successful init on a registered connection adds
one (even a repeated init on an already-authenticated connection), every
close subtracts one (even for a never-authenticated connection), and one
sweep subtracts the number of evicted records; consequently it can drift
from the authenticated-entry count and below zero. -/
theorem C10_count_is_inits_minus_closes :
    ∀ (s : ServerConns),
    (∀ (peer : String) (now : Nat),
        (serverStep s (ServerEvent.connectEv peer now)).connectionCount
          = s.connectionCount) ∧
    (∀ (peer : String) (ok : Bool),
        (serverStep s (ServerEvent.initEv peer ok)).connectionCount
          = s.connectionCount + (if (s.conns.lookup peer).isSome && ok then 1 else 0)) ∧
    (∀ (peer : String),
        (serverStep s (ServerEvent.disconnectConfirmEv peer)).connectionCount
          = s.connectionCount - (if (s.conns.lookup peer).isSome then 1 else 0)) ∧
    (∀ (now period : Nat),
        (serverStep s (ServerEvent.sweepEv now period)).connectionCount
          = s.connectionCount - ((s.conns.filter (heartless now period)).length : Int)) := by
  intro s
  refine ⟨?_, ?_, ?_, ?_⟩
  · intro peer now
    simp [serverStep]
  · intro peer ok
    cases hl : s.conns.lookup peer with
    | none => simp [serverStep, hl]
    | some r =>
        cases ok with
        | false => simp [serverStep, hl]
        | true => simp [serverStep, hl]
  · intro peer
    cases hl : s.conns.lookup peer with
    | none => simp [serverStep, hl]
    | some r => simp [serverStep, hl, closeConnection]
  · intro now period
    simp [serverStep]
